import Mathlib

/-!
Shallow embedding of the gokube control plane (pkg/api, pkg/storage,
pkg/registry, pkg/controller, pkg/listwatch, pkg/retry) and proofs about the
behaviour of its operations.  Go structures become Lean structures, the etcd
key-value store becomes an association list from keys to values, fallible Go
functions return `Except`, and machine integers (int, int32) are modelled as
`Int` (the quantities involved are object counts, far below the int32 range).
-/

deriving instance DecidableEq for Except

set_option maxRecDepth 4000

/-! ## Data model (pkg/api/types.go) -/

/-- Go `api.PodStatus` is a string type; the constants below are its values. -/
abbrev PodStatusT := String

def PodStatusUnassigned : PodStatusT := "Unassigned"

def PodPending : PodStatusT := "Pending"

def PodScheduled : PodStatusT := "Scheduled"

def PodRunning : PodStatusT := "Running"

def PodSucceeded : PodStatusT := "Succeeded"

def PodFailed : PodStatusT := "Failed"

/-- `api.ObjectMeta`: minimal metadata all persisted resources carry.
`CreationTimestamp` (a `time.Time`) is modelled as a natural number. -/
structure ObjectMeta where
  name : String
  namespc : String
  uid : String
  resourceVersion : String
  creationTimestamp : Nat
deriving DecidableEq, Repr

/-- `api.Container`. -/
structure Container where
  name : String
  image : String
deriving DecidableEq, Repr

/-- `api.PodSpec`. -/
structure PodSpec where
  containers : List Container
  replicas : Int
deriving DecidableEq, Repr

/-- `api.Pod`. -/
structure Pod where
  metadata : ObjectMeta
  spec : PodSpec
  nodeName : String
  status : PodStatusT
deriving DecidableEq, Repr

/-- `api.NodeSpec`. -/
structure NodeSpec where
  unschedulable : Bool
  providerID : String
deriving DecidableEq, Repr

/-- `api.Node`; `NodeStatus` is a string type (Ready, NotReady, ...). -/
structure Node where
  metadata : ObjectMeta
  spec : NodeSpec
  status : String
deriving DecidableEq, Repr

/-- `api.PodTemplateSpec`. -/
structure PodTemplateSpec where
  metadata : ObjectMeta
  spec : PodSpec
deriving DecidableEq, Repr

/-- `api.ReplicaSetSpec`; the selector map is an association list. -/
structure ReplicaSetSpec where
  replicas : Int
  selector : List (String × String)
  template : PodTemplateSpec
deriving DecidableEq, Repr

/-- `api.ReplicaSetStatus`. -/
structure ReplicaSetStatus where
  replicas : Int
  fullyLabeledReplicas : Int
  readyReplicas : Int
  availableReplicas : Int
deriving DecidableEq, Repr

/-- `api.ReplicaSet`. -/
structure ReplicaSet where
  metadata : ObjectMeta
  spec : ReplicaSetSpec
  status : ReplicaSetStatus
deriving DecidableEq, Repr

/-- Go `strings.HasPrefix s pre`: whether `pre` is a prefix of `s`. -/
def goHasPrefixCheck (s pre : String) : Bool :=
  pre.data.isPrefixOf s.data

/-! ## Storage (pkg/storage, EtcdStorage over etcd)

The etcd store holding one kind of object is an association list from keys to
decoded objects; `runtime.Encode`/`runtime.Decode` (JSON) round-trip, so the
byte payloads are identified with the objects themselves.  etcd `Put` replaces
the value of an existing key and otherwise appends the new key; `Get` returns
the value of the key or nothing; `Delete` removes the key and is idempotent;
a prefix `Get` (used by `List`) returns the values of all keys with the given
prefix. -/

abbrev StoreMap (α : Type) : Type := List (String × α)

/-- `EtcdStorage.Get` on a single key (`client.Get(ctx, key)`): the decoded
object stored at `key`, if any. -/
def storeGet {α : Type} : StoreMap α → String → Option α
  | [], _ => none
  | kv :: rest, k => if kv.1 == k then some kv.2 else storeGet rest k

/-- etcd `Put` (used by both `EtcdStorage.Create` and `EtcdStorage.Update`,
neither of which does compare-and-swap): replace the value of an existing key,
otherwise append the key. -/
def storePut {α : Type} : StoreMap α → String → α → StoreMap α
  | [], k, v => [(k, v)]
  | kv :: rest, k, v => if kv.1 == k then (k, v) :: rest else kv :: storePut rest k v

/-- `EtcdStorage.Delete`: remove the key; deleting a missing key succeeds. -/
def storeDelete {α : Type} (s : StoreMap α) (k : String) : StoreMap α :=
  s.filter (fun kv => !(kv.1 == k))

/-- `EtcdStorage.List`: the decoded values of all keys with the given prefix. -/
def storeListVals {α : Type} (s : StoreMap α) (pfxS : String) : List α :=
  (s.filter (fun kv => goHasPrefixCheck kv.1 pfxS)).map (fun kv => kv.2)

/-! Store lemmas. -/

theorem storeGet_storePut_self {α : Type} (s : StoreMap α) (k : String) (v : α) :
    storeGet (storePut s k v) k = some v := by
  induction s with
  | nil => simp [storePut, storeGet]
  | cons kv rest ih =>
    by_cases hk : kv.1 == k
    · simp [storePut, storeGet, hk]
    · simp [storePut, storeGet, hk, ih]

theorem storeGet_storePut_ne {α : Type} (s : StoreMap α) (k k' : String) (v : α)
    (hne : k' ≠ k) : storeGet (storePut s k v) k' = storeGet s k' := by
  induction s with
  | nil =>
    simp only [storePut, storeGet]
    rw [if_neg (by simp [beq_eq_false_iff_ne]; exact fun he => hne he.symm : ¬(k == k') = true)]
  | cons kv rest ih =>
    by_cases hk : kv.1 == k
    · have h1 : (k == k') = false := by
        simp only [beq_eq_false_iff_ne]
        exact fun he => hne he.symm
      have h2 : (kv.1 == k') = false := by
        simp only [beq_eq_false_iff_ne]
        intro he
        exact hne ((beq_iff_eq.mp hk ▸ he : k = k').symm ▸ rfl)
      simp [storePut, storeGet, hk, h1, h2, beq_iff_eq.mp hk]
    · simp only [storePut, if_neg hk, storeGet]
      by_cases hk' : kv.1 == k'
      · simp [hk']
      · simp [hk', ih]

theorem storePut_absent {α : Type} {s : StoreMap α} {k : String} (v : α)
    (h : storeGet s k = none) : storePut s k v = s ++ [(k, v)] := by
  induction s with
  | nil => simp [storePut]
  | cons kv rest ih =>
    by_cases hk : kv.1 == k
    · simp [storeGet, hk] at h
    · simp only [storeGet, if_neg hk] at h
      simp [storePut, hk, ih h]

theorem goHasPrefixCheck_append (a b : String) : goHasPrefixCheck (a ++ b) a = true := by
  unfold goHasPrefixCheck
  rw [String.data_append, List.isPrefixOf_iff_prefix]
  exact List.prefix_append a.data b.data

/-! ## Pod registry (src/pkg/registry/pod_registry.go)

The per-kind registries compose the storage layer with a key prefix.  The
readers-writer lock serialises calls inside one process; in this sequential
model every call is already atomic, so the lock has no observable effect. -/

def podKeyBase : String := "/pods/"

/-- `PodRegistry.CreatePod`: get-then-create; fails when the name is taken;
a pod created with an empty status is stored with status Unassigned. -/
def createPod (s : StoreMap Pod) (pod : Pod) : Except String (StoreMap Pod) :=
  let key := podKeyBase ++ pod.metadata.name
  match storeGet s key with
  | some _ => .error ("pod " ++ pod.metadata.name ++ " already exists")
  | none =>
    let pod := if pod.status = "" then { pod with status := PodStatusUnassigned } else pod
    .ok (storePut s key pod)

/-- `PodRegistry.GetPod`. -/
def getPod (s : StoreMap Pod) (name : String) : Except String Pod :=
  match storeGet s (podKeyBase ++ name) with
  | some pod => .ok pod
  | none => .error ("object not found: " ++ podKeyBase ++ name)

/-- `PodRegistry.UpdatePod`: a plain storage `Update` (etcd put), with no
existence check at this layer. -/
def updatePod (s : StoreMap Pod) (pod : Pod) : Except String (StoreMap Pod) :=
  .ok (storePut s (podKeyBase ++ pod.metadata.name) pod)

/-- `PodRegistry.DeletePod`. -/
def deletePod (s : StoreMap Pod) (name : String) : Except String (StoreMap Pod) :=
  .ok (storeDelete s (podKeyBase ++ name))

/-- `PodRegistry.ListPods`: storage `List` under the pod prefix. -/
def listPods (s : StoreMap Pod) : List Pod :=
  storeListVals s podKeyBase

/-- `PodRegistry.ListUnassignedPods` (src/pkg/registry/pod_registry.go:86):
filters the listed pods by `pod.Status == api.PodStatusUnassigned`. -/
def listUnassignedPods (s : StoreMap Pod) : List Pod :=
  (listPods s).filter (fun pod => pod.status == PodStatusUnassigned)

/-! ## Node registry (src/pkg/registry/node_registry.go) -/

def nodeKeyBase : String := "/registry/nodes/"

/-- `generateKey` in node_registry.go: `path.Join(prefix, name)`.  For the
non-empty, slash-free names used throughout this is prefix-plus-name. -/
def generateKey (pfxS name : String) : String := pfxS ++ name

/-- `NodeRegistry.CreateNode`: get-then-create. -/
def createNode (s : StoreMap Node) (node : Node) : Except String (StoreMap Node) :=
  let key := generateKey nodeKeyBase node.metadata.name
  match storeGet s key with
  | some _ => .error ("node already exists: " ++ node.metadata.name)
  | none => .ok (storePut s key node)

/-- `NodeRegistry.GetNode`. -/
def getNode (s : StoreMap Node) (name : String) : Except String Node :=
  match storeGet s (generateKey nodeKeyBase name) with
  | some node => .ok node
  | none => .error ("node not found: " ++ name)

/-- `NodeRegistry.UpdateNode`: a plain storage `Update` (etcd put), with no
existence check at this layer. -/
def updateNode (s : StoreMap Node) (node : Node) : Except String (StoreMap Node) :=
  .ok (storePut s (generateKey nodeKeyBase node.metadata.name) node)

/-! ## ReplicaSet registry (source in the scheduler part of the sources) -/

def rsKey (name : String) : String := "/replicasets/" ++ name

/-- `ReplicaSetRegistry.Create`: get-then-create. -/
def rsRegistryCreate (s : StoreMap ReplicaSet) (rs : ReplicaSet) :
    Except String (StoreMap ReplicaSet) :=
  match storeGet s (rsKey rs.metadata.name) with
  | some _ => .error ("replicaset " ++ rs.metadata.name ++ " already exists")
  | none => .ok (storePut s (rsKey rs.metadata.name) rs)

/-- `ReplicaSetRegistry.Get`. -/
def rsRegistryGet (s : StoreMap ReplicaSet) (name : String) : Except String ReplicaSet :=
  match storeGet s (rsKey name) with
  | some rs => .ok rs
  | none => .error ("replicaset " ++ name ++ " not found")

/-- `ReplicaSetRegistry.Update`: unlike the pod and node registries, this one
checks existence with a Get first and fails with not-found when absent. -/
def rsRegistryUpdate (s : StoreMap ReplicaSet) (rs : ReplicaSet) :
    Except String (StoreMap ReplicaSet) :=
  match storeGet s (rsKey rs.metadata.name) with
  | none => .error ("replicaset " ++ rs.metadata.name ++ " not found")
  | some _ => .ok (storePut s (rsKey rs.metadata.name) rs)

/-- `ReplicaSetRegistry.List`. -/
def rsRegistryList (s : StoreMap ReplicaSet) : List ReplicaSet :=
  storeListVals s "/replicasets/"

/-! ## Replica-set controller (controller package, ReplicaSetController) -/

/-- `isActive` in the controller: a pod is active when its status is neither
Succeeded nor Failed. -/
def isActive (pod : Pod) : Bool :=
  !(pod.status == PodSucceeded) && !(pod.status == PodFailed)

/-- `api.Pod.IsActive` (pkg/api): a pod is active when its status is not
Failed; here Succeeded pods count as active. -/
def Pod.IsActive (p : Pod) : Bool :=
  !(p.status == PodFailed)

/-- `isOwnedBy` in the controller: ownership by name prefix
(`strings.HasPrefix(pod.Name, rs.Name)`). -/
def isOwnedBy (pod : Pod) (rs : ReplicaSet) : Bool :=
  goHasPrefixCheck pod.metadata.name rs.metadata.name

/-- `isPodActiveAndOwnedBy` in the controller. -/
def isPodActiveAndOwnedBy (pod : Pod) (rs : ReplicaSet) : Bool :=
  isOwnedBy pod rs && isActive pod

/-- `ReplicaSetController.getPodsForReplicaSet`: filter the listed pods with
the given condition (its error result is always nil in the source). -/
def getPodsForReplicaSet (rs : ReplicaSet) (allPods : List Pod)
    (condition : Pod → ReplicaSet → Bool) : List Pod :=
  allPods.filter (fun pod => condition pod rs)

/-- Modelled from the spec: `names.SimpleNameGenerator.GenerateName` (package
`pkg/registry/names`, whose source is not among these files) appends a short
random suffix to its argument, which "ensures ownership-by-prefix"; the
random suffix is made an explicit argument.  `generatePodNameFromReplicaSet`
in the controller passes the replica-set name. -/
def generatePodNameFromReplicaSet (replicaSetName suffix : String) : String :=
  replicaSetName ++ suffix

/-- The pod literal built in the creation loop of `Reconcile`: a fresh name
generated from the replica-set name and a spec holding the single template
container; every other field is left at its zero value. -/
def templatePod (rsName suffix : String) (c : Container) : Pod :=
  { metadata := { name := generatePodNameFromReplicaSet rsName suffix,
                  namespc := "", uid := "", resourceVersion := "", creationTimestamp := 0 },
    spec := { containers := [c], replicas := 0 },
    nodeName := "",
    status := "" }

/-- The pods the creation loop of `Reconcile` builds, in creation order:
slots `cur, cur+1, ..., desired-1`, and inside each slot the template
containers in declaration order.  The suffix source `sfx` is indexed by the
running count of GenerateName calls. -/
def podsToCreate (rs : ReplicaSet) (sfx : Nat → String) (cur desired : Int) : List Pod :=
  let containers := rs.spec.template.spec.containers
  (List.range (desired - cur).toNat).flatMap (fun i =>
    containers.enum.map (fun cj =>
      templatePod rs.metadata.name (sfx (i * containers.length + cj.1)) cj.2))

/-- The sequence of `podRegistry.CreatePod` calls in the creation loop:
the first failure aborts `Reconcile` with that error. -/
def createAll : StoreMap Pod → List Pod → Except String (StoreMap Pod)
  | s, [] => .ok s
  | s, p :: rest =>
    match createPod s p with
    | .error e => .error e
    | .ok s' => createAll s' rest

/-- The world a reconciliation tick sees: the pod store and the replica-set
store of the shared etcd instance. -/
structure World where
  pods : StoreMap Pod
  replicaSets : StoreMap ReplicaSet
deriving DecidableEq, Repr

/-- Observables of one `Reconcile` call: the resulting world, the pods the
call created, and the value written to `rs.status.replicas`. -/
structure ReconcileResult where
  world : World
  created : List Pod
  statusWritten : Int
deriving DecidableEq, Repr

/-- The count of pods owned by `rs` and active, among all listed pods. -/
def activeOwnedCount (rs : ReplicaSet) (pods : StoreMap Pod) : Int :=
  (getPodsForReplicaSet rs (listPods pods) isPodActiveAndOwnedBy).length

/-- The Go local `currentPodCount` before the creation loop:
`len(activePods)`. -/
def reconCur (rs : ReplicaSet) (w : World) : Int :=
  activeOwnedCount rs w.pods

/-- The pods the creation loop of one `Reconcile` call builds: empty unless
`currentPodCount < desiredPodCount`. -/
def reconToCreate (sfx : Nat → String) (rs : ReplicaSet) (w : World) : List Pod :=
  if reconCur rs w < rs.spec.replicas then
    podsToCreate rs sfx (reconCur rs w) rs.spec.replicas
  else []

/-- The Go local `currentPodCount` at the status write: it is reassigned to
`desiredPodCount` both in the creation branch and in the excess branch, so
only the `cur = desired` case keeps the counted value. -/
def reconNewCount (rs : ReplicaSet) (w : World) : Int :=
  if reconCur rs w < rs.spec.replicas then rs.spec.replicas
  else if rs.spec.replicas < reconCur rs w then rs.spec.replicas
  else reconCur rs w

/-- The replica set as written back: `currentRS.Status.Replicas` set to the
final `currentPodCount`. -/
def reconUpdatedRS (rs : ReplicaSet) (w : World) : ReplicaSet :=
  { rs with status := { rs.status with replicas := reconNewCount rs w } }

/-- `ReplicaSetController.Reconcile`: re-Get the replica set, list all pods,
count the active owned ones, create one pod per template container for each
missing slot, and write the replica-set status.  On an error the Go code
returns early; partial creations before a failure stay in etcd but are not
observed by any of the theorems below, which all assume a successful call. -/
def reconcile (sfx : Nat → String) (w : World) (rsName : String) :
    Except String ReconcileResult :=
  match rsRegistryGet w.replicaSets rsName with
  | .error e => .error e
  | .ok currentRS =>
    match createAll w.pods (reconToCreate sfx currentRS w) with
    | .error e => .error e
    | .ok pods' =>
      match rsRegistryUpdate w.replicaSets (reconUpdatedRS currentRS w) with
      | .error e => .error e
      | .ok rss' =>
        .ok { world := { pods := pods', replicaSets := rss' },
              created := reconToCreate sfx currentRS w,
              statusWritten := reconNewCount currentRS w }

/-! ## ListWatch (pkg/listwatch) -/

/-- listwatch event types (`EventType` string constants). -/
def AddedT : String := "ADDED"

def ModifiedT : String := "MODIFIED"

def DeletedT : String := "DELETED"

def ErrorT : String := "ERROR"

/-- `listwatch.Event`: the `Prefix` field is called `pfx` here; the `[]byte`
value is modelled as a string. -/
structure Event where
  type : String
  key : String
  value : String
  pfx : String
deriving DecidableEq, Repr

/-- `Event.validate`: well-formedness check of an event. -/
def Event.validate (e : Event) : Except String Unit :=
  if e.type = "" then .error "event type cannot be empty"
  else if e.key = "" && !(e.type == ErrorT) then
    .error "event key cannot be empty for non-error events"
  else if e.pfx = "" then .error "event prefix cannot be empty"
  else .ok ()

/-- The state a `ListWatch` instance carries that the claims depend on
(endpoints and the watched prefix; client handle, options, metrics and logger
are I/O resources outside this model). -/
structure ListWatchState where
  endpoints : List String
  watchPfx : String
deriving DecidableEq, Repr

/-- `NewListWatch`: rejects an empty prefix. -/
def newListWatch (endpoints : List String) (pfxS : String) :
    Except String ListWatchState :=
  if pfxS = "" then .error "prefix cannot be empty"
  else .ok { endpoints := endpoints, watchPfx := pfxS }

/-- The event literal built by `tryToSendErrorEvent` (and by
`handleWatchChannelClose` and the watch goroutine on a stream error):
`Event{Type: Error, Value: []byte(errMsg)}` — the Key and Prefix fields are
left at their zero value and `validate` is never consulted on this path. -/
def errorEvent (errMsg : String) : Event :=
  { type := ErrorT, key := "", value := errMsg, pfx := "" }

/-- `sendEvent`: validates the event and only then sends it on the channel;
an invalid event is not emitted and surfaces as an error instead. -/
def sendEvent (e : Event) : Except String Event :=
  match e.validate with
  | .error err => .error ("invalid event: " ++ err)
  | .ok _ => .ok e

/-- One key-value of an etcd Get/watch response; the value plus its create
and modification revisions. -/
structure KVRec where
  key : String
  value : String
  createRevision : Int
  modRevision : Int
deriving DecidableEq, Repr

/-- The event the `List` method builds for one key-value of the snapshot:
Added, or Modified when the key has been modified since creation; the Key,
Value and the watcher Prefix are carried over. -/
def listEventOf (watchPfx : String) (kv : KVRec) : Event :=
  { type := if kv.createRevision != kv.modRevision then ModifiedT else AddedT,
    key := kv.key, value := kv.value, pfx := watchPfx }

/-- etcd watch event kinds. -/
inductive EtcdEvKind where
  | put
  | del
deriving DecidableEq, Repr

/-- The event the `Watch` goroutine builds for one etcd event: Added for a
put of a new key, Modified for a put of an existing key, Deleted for a
delete; the Key, Value and the watcher Prefix are carried over. -/
def watchEventOf (watchPfx : String) (kind : EtcdEvKind) (kv : KVRec) : Event :=
  { type := match kind with
            | .put => if kv.createRevision == kv.modRevision then AddedT else ModifiedT
            | .del => DeletedT,
    key := kv.key, value := kv.value, pfx := watchPfx }

/-! ## ListWatch revision anchoring (ListAndWatch cycle)

One commit history of the backing etcd store: the operation at index `j`
commits at revision `j + 1`; revision `0` is the empty store.  A `Get` served
while the store is at revision `r` sees the state after the first `r`
operations, and a watch created with `WithRev(v)` delivers every operation
whose revision is at least `v`. -/

inductive EtcdOp where
  | put (k v : String)
  | del (k : String)
deriving DecidableEq, Repr

def applyOp (m : StoreMap String) : EtcdOp → StoreMap String
  | .put k v => storePut m k v
  | .del k => storeDelete m k

/-- The key-value state of the store at revision `r`. -/
def stateAt (h : List EtcdOp) (r : Nat) : StoreMap String :=
  (h.take r).foldl applyOp []

/-- The `List` method of ListWatch: a prefix Get served at revision `rList`,
converted to events (the Modified refinement by create revision is not
tracked here).  The revision in the response header is discarded by the
source: `List` returns only the events. -/
def codeListCycleEvents (watchPfx : String) (h : List EtcdOp) (rList : Nat) : List Event :=
  ((stateAt h rList).filter (fun kv => goHasPrefixCheck kv.1 watchPfx)).map
    (fun kv => { type := AddedT, key := kv.1, value := kv.2, pfx := watchPfx })

/-- The `Watch` method of ListWatch: it performs its own fresh Get (served at
revision `rWatchGet`, which can exceed the revision of the preceding List)
and creates the etcd watch with `WithRev(rWatchGet + 1)`. -/
def codeWatchStartRev (rWatchGet : Nat) : Nat := rWatchGet + 1

/-- The operations such a watch delivers: every operation committed at a
revision of at least `codeWatchStartRev rWatchGet`. -/
def codeWatchOps (h : List EtcdOp) (rWatchGet : Nat) : List EtcdOp :=
  h.drop rWatchGet

/-- Modelled from the spec: the watch of a List-then-Watch cycle starts at
revision `R + 1` where `R` is the revision returned by the preceding List,
so it delivers every operation committed after the List snapshot. -/
def specWatchOps (h : List EtcdOp) (rList : Nat) : List EtcdOp :=
  h.drop rList

/-! ## Retry (pkg/retry, WithRetries) -/

/-- The outcome value of `WithRetries`: nil, the error of the last attempt,
or the context error when cancellation is observed between attempts. -/
inductive RetryErr where
  | opErr (e : String)
  | ctxErr
deriving DecidableEq, Repr

/-- Observables of a `WithRetries` call: the returned error (none for nil)
and how many times the operation was invoked. -/
structure RetryOutcome where
  result : Option RetryErr
  calls : Nat
deriving DecidableEq, Repr

/-- The loop of `WithRetries` from iteration index `i` with
`rem = attempts - i` iterations left to run.  `op j` is the error of the
j-th invocation of the operation (none for success) and `ctxDone j` tells
whether the context is observed cancelled in the select after a failed
j-th attempt. -/
def withRetriesAux (op : Nat → Option String) (ctxDone : Nat → Bool) :
    Nat → Nat → RetryOutcome
  | 0, _ => { result := none, calls := 0 }
  | rem + 1, i =>
    match op i with
    | none => { result := none, calls := 1 }
    | some e =>
      if rem = 0 then { result := some (.opErr e), calls := 1 }
      else if ctxDone i then { result := some .ctxErr, calls := 1 }
      else
        let r := withRetriesAux op ctxDone rem (i + 1)
        { result := r.result, calls := r.calls + 1 }

/-- `retry.WithRetries attempts delay op`: the loop runs while `i < attempts`
over the int counter, so an attempts value of zero or below runs zero
iterations and returns nil. -/
def withRetries (attempts : Int) (op : Nat → Option String) (ctxDone : Nat → Bool) :
    RetryOutcome :=
  withRetriesAux op ctxDone attempts.toNat 0

/-! ## Pod create handler (src/pkg/api/handlers/pod.go) -/

/-- The registry error kinds the handler distinguishes. -/
inductive PodRegErr where
  | alreadyExists
  | invalid
  | storageFault
deriving DecidableEq, Repr

/-- Pod-spec validity per the data model: a non-empty container list, every
container with a non-empty image, and a non-negative replica count. -/
def podValid (p : Pod) : Bool :=
  !p.spec.containers.isEmpty &&
    p.spec.containers.all (fun c => !(c.image == "")) && decide (0 ≤ p.spec.replicas)

/-- Modelled from the spec: the registry variant the handler calls returns
distinguished errors — already-exists from the get-then-create check (the
same pattern as `CreatePod` in src/pkg/registry/pod_registry.go), invalid
from pod validation, and a Pending default status; its source file is not
among these sources, only its tests and this caller. -/
def gokubeCreatePod (s : StoreMap Pod) (p : Pod) : Except PodRegErr (StoreMap Pod) :=
  match storeGet s (podKeyBase ++ p.metadata.name) with
  | some _ => .error .alreadyExists
  | none =>
    if podValid p then
      let p := if p.status = "" then { p with status := PodPending } else p
      .ok (storePut s (podKeyBase ++ p.metadata.name) p)
    else .error .invalid

/-- One write the handler performs on the HTTP response. -/
inductive HttpWrite where
  | err (status : Nat)
  | entity (status : Nat) (pod : Pod)
deriving DecidableEq, Repr

/-- `PodHandler.CreatePod`, as the sequence of response writes it performs
for a decoded pod: on the already-exists branch the switch case writes 409
and, lacking the `return` its sibling cases have, falls through to the final
`WriteResponse(201, pod)`; the invalid and default branches return after
writing 400 and 500; on success only 201 with the pod is written. -/
def handleCreatePod (s : StoreMap Pod) (p : Pod) : List HttpWrite :=
  match gokubeCreatePod s p with
  | .error .alreadyExists => [.err 409, .entity 201 p]
  | .error .invalid => [.err 400]
  | .error .storageFault => [.err 500]
  | .ok _ => [.entity 201 p]

/-! ## Theorems -/

theorem withRetriesAux_calls_le (op : Nat → Option String) (ctxDone : Nat → Bool) :
    ∀ rem i, (withRetriesAux op ctxDone rem i).calls ≤ rem := by
  intro rem
  induction rem with
  | zero => intro i; simp [withRetriesAux]
  | succ r ih =>
    intro i
    cases he : op i with
    | none => simp [withRetriesAux, he]
    | some e =>
      by_cases hr : r = 0
      · simp [withRetriesAux, he, hr]
      · by_cases hc : ctxDone i
        · simp [withRetriesAux, he, hr, hc]
        · have h := ih (i + 1)
          simp [withRetriesAux, he, hr, hc]
          omega

theorem withRetriesAux_all_fail (op : Nat → Option String) (ctxDone : Nat → Bool) :
    ∀ rem i, 1 ≤ rem → (∀ j, ctxDone j = false) →
      (∀ j, j < i + rem → (op j).isSome) →
      withRetriesAux op ctxDone rem i =
        { result := (op (i + rem - 1)).map RetryErr.opErr, calls := rem } := by
  intro rem
  induction rem with
  | zero => intro i h1; omega
  | succ r ih =>
    intro i _ hctx hop
    have hsome : (op i).isSome := hop i (by omega)
    cases he : op i with
    | none => rw [he] at hsome; simp at hsome
    | some e =>
      by_cases hr : r = 0
      · subst hr
        simp [withRetriesAux, he]
      · have hrec := ih (i + 1) (by omega) hctx (fun j hj => hop j (by omega))
        have harg : i + 1 + r - 1 = i + (r + 1) - 1 := by omega
        rw [harg] at hrec
        simp only [withRetriesAux, he, hr, hctx i, if_false, hrec]
        simp [he]

/-- C10: a WithRetries call with attempts at most zero returns nil without
invoking the operation; with attempts at least one it invokes the operation
at most attempts times, and when every attempt fails with the context never
cancelled it returns the error of the last attempt after exactly attempts
invocations. -/
theorem withRetries_spec (attempts : Int) (op : Nat → Option String) (ctxDone : Nat → Bool) :
    (attempts ≤ 0 → withRetries attempts op ctxDone = { result := none, calls := 0 }) ∧
    (withRetries attempts op ctxDone).calls ≤ attempts.toNat ∧
    (1 ≤ attempts → (∀ j, ctxDone j = false) →
      (∀ j, j < attempts.toNat → (op j).isSome) →
      withRetries attempts op ctxDone =
        { result := (op (attempts.toNat - 1)).map RetryErr.opErr, calls := attempts.toNat }) := by
  refine ⟨fun hle => ?_, ?_, fun h1 hctx hop => ?_⟩
  · unfold withRetries
    rw [Int.toNat_of_nonpos hle]
    rfl
  · exact withRetriesAux_calls_le op ctxDone attempts.toNat 0
  · unfold withRetries
    have := withRetriesAux_all_fail op ctxDone attempts.toNat 0 (by omega) hctx
      (fun j hj => hop j (by omega))
    simpa using this

/-- C10 witness: with attempts of -1 and 2, the operation failing on every
invocation and the context never cancelled. -/
theorem withRetries_spec_witness :
    withRetries (-1) (fun j => some (String.mk (List.replicate (j + 1) 'e'))) (fun _ => false) =
      { result := none, calls := 0 } ∧
    withRetries 2 (fun j => some (String.mk (List.replicate (j + 1) 'e'))) (fun _ => false) =
      { result := some (.opErr "ee"), calls := 2 } := by
  constructor
  · exact (withRetries_spec (-1) (fun j => some (String.mk (List.replicate (j + 1) 'e')))
      (fun _ => false)).1 (by decide)
  · have h := (withRetries_spec 2 (fun j => some (String.mk (List.replicate (j + 1) 'e')))
      (fun _ => false)).2.2 (by decide) (fun j => rfl) (fun j hj => rfl)
    rw [h]
    decide

/-- C8 (amended): ListUnassignedPods returns exactly the stored pods whose
status equals Unassigned (the status CreatePod assigns to pods created with
an empty status); the node-name field is not consulted. -/
theorem listUnassignedPods_mem (s : StoreMap Pod) (p : Pod) :
    p ∈ listUnassignedPods s ↔ p ∈ listPods s ∧ p.status = PodStatusUnassigned := by
  simp [listUnassignedPods, List.mem_filter]

def podC8 : Pod :=
  { metadata := { name := "p1", namespc := "", uid := "", resourceVersion := "",
                  creationTimestamp := 0 },
    spec := { containers := [{ name := "c1", image := "nginx" }], replicas := 0 },
    nodeName := "",
    status := PodRunning }

def storeC8 : StoreMap Pod := [(podKeyBase ++ "p1", podC8)]

/-- C8 counterexample: a stored pod with an empty node name and status
Running is not returned by ListUnassignedPods, so membership is not
equivalent to having an empty node name. -/
theorem listUnassignedPods_counterexample :
    podC8.nodeName = "" ∧ podC8 ∈ listPods storeC8 ∧ listUnassignedPods storeC8 = [] := by
  decide

/-- C7 (amended): the pod and node registry Update operations are best-effort
upserts through a plain storage put — they succeed on any store, absent key
included, and a subsequent Get returns the stored object — while the replica
set registry Update does a Get first and fails with not-found when the key is
absent. -/
theorem registry_update_upsert (sp : StoreMap Pod) (p : Pod) (sn : StoreMap Node)
    (n : Node) (sr : StoreMap ReplicaSet) (r : ReplicaSet)
    (habsent : storeGet sr (rsKey r.metadata.name) = none) :
    updatePod sp p = .ok (storePut sp (podKeyBase ++ p.metadata.name) p) ∧
    getPod (storePut sp (podKeyBase ++ p.metadata.name) p) p.metadata.name = .ok p ∧
    updateNode sn n = .ok (storePut sn (generateKey nodeKeyBase n.metadata.name) n) ∧
    getNode (storePut sn (generateKey nodeKeyBase n.metadata.name) n) n.metadata.name = .ok n ∧
    rsRegistryUpdate sr r = .error ("replicaset " ++ r.metadata.name ++ " not found") := by
  refine ⟨rfl, ?_, rfl, ?_, ?_⟩
  · unfold getPod
    rw [storeGet_storePut_self]
  · unfold getNode
    rw [storeGet_storePut_self]
  · unfold rsRegistryUpdate
    rw [habsent]

def podC7 : Pod :=
  { metadata := { name := "p7", namespc := "", uid := "", resourceVersion := "",
                  creationTimestamp := 0 },
    spec := { containers := [{ name := "c7", image := "nginx" }], replicas := 0 },
    nodeName := "",
    status := PodPending }

def nodeC7 : Node :=
  { metadata := { name := "n7", namespc := "", uid := "", resourceVersion := "",
                  creationTimestamp := 0 },
    spec := { unschedulable := false, providerID := "" },
    status := "Ready" }

def rsC7 : ReplicaSet :=
  { metadata := { name := "rs7", namespc := "", uid := "", resourceVersion := "",
                  creationTimestamp := 0 },
    spec := { replicas := 1, selector := [],
              template := { metadata := { name := "", namespc := "", uid := "",
                                          resourceVersion := "", creationTimestamp := 0 },
                            spec := { containers := [{ name := "c7", image := "nginx" }],
                                      replicas := 0 } } },
    status := { replicas := 0, fullyLabeledReplicas := 0, readyReplicas := 0,
                availableReplicas := 0 } }

/-- C7 witness: the amended statement at empty stores. -/
theorem registry_update_upsert_witness :
    updatePod [] podC7 = .ok (storePut [] (podKeyBase ++ podC7.metadata.name) podC7) ∧
    getPod (storePut [] (podKeyBase ++ podC7.metadata.name) podC7) podC7.metadata.name =
      .ok podC7 ∧
    updateNode [] nodeC7 = .ok (storePut [] (generateKey nodeKeyBase nodeC7.metadata.name) nodeC7) ∧
    getNode (storePut [] (generateKey nodeKeyBase nodeC7.metadata.name) nodeC7)
      nodeC7.metadata.name = .ok nodeC7 ∧
    rsRegistryUpdate [] rsC7 = .error ("replicaset " ++ rsC7.metadata.name ++ " not found") :=
  registry_update_upsert [] podC7 [] nodeC7 [] rsC7 (by decide)

/-- C7 counterexample: the claim quantifies over all three registries, but
the replica set registry Update fails with not-found on an absent key
instead of upserting. -/
theorem rsUpdate_absent_counterexample :
    rsRegistryUpdate ([] : StoreMap ReplicaSet) rsC7 = .error "replicaset rs7 not found" := by
  decide

def podC6 : Pod :=
  { metadata := { name := "p6", namespc := "", uid := "", resourceVersion := "",
                  creationTimestamp := 0 },
    spec := { containers := [{ name := "c6", image := "nginx" }], replicas := 0 },
    nodeName := "",
    status := PodPending }

def storeC6 : StoreMap Pod := [(podKeyBase ++ "p6", podC6)]

/-- C6: posting a pod whose name already exists makes the handler write the
409 conflict error and then, for want of a return statement in that switch
case, fall through and also perform the 201 Created write with the pod. -/
theorem createPod_conflict_writes_409_then_201 :
    handleCreatePod storeC6 podC6 = [.err 409, .entity 201 podC6] := by
  decide

/-- C5 (amended): events that reach the channel through sendEvent — the
initial-list events and the watch-converted events — are validated and carry
a non-empty Type, a non-empty Key and the watcher Prefix; the synthetic
Error events produced on connection failure, list failure, watch errors and
watch-channel closure bypass validation and carry an empty Key and an empty
Prefix rather than the watcher Prefix. -/
theorem event_validation_amended (watchPfx : String) (kv : KVRec) (kind : EtcdEvKind)
    (msg : String) (ev ev' : Event)
    (hp : watchPfx ≠ "") (hk : kv.key ≠ "") (hsend : sendEvent ev = .ok ev') :
    (listEventOf watchPfx kv).validate = .ok () ∧
    (listEventOf watchPfx kv).type ≠ "" ∧
    (listEventOf watchPfx kv).key = kv.key ∧
    (listEventOf watchPfx kv).pfx = watchPfx ∧
    (watchEventOf watchPfx kind kv).validate = .ok () ∧
    (watchEventOf watchPfx kind kv).type ≠ "" ∧
    (watchEventOf watchPfx kind kv).key = kv.key ∧
    (watchEventOf watchPfx kind kv).pfx = watchPfx ∧
    ev'.validate = .ok () ∧
    (errorEvent msg).key = "" ∧
    (errorEvent msg).pfx = "" := by
  have hlist : (listEventOf watchPfx kv).type ≠ "" := by
    unfold listEventOf
    by_cases hc : kv.createRevision != kv.modRevision
    · simp [hc, ModifiedT]
    · simp [hc, AddedT]
  have hwatch : (watchEventOf watchPfx kind kv).type ≠ "" := by
    unfold watchEventOf
    cases kind with
    | put =>
      by_cases hc : kv.createRevision == kv.modRevision
      · simp [hc, AddedT]
      · simp [hc, ModifiedT]
    | del => simp [DeletedT]
  refine ⟨?_, hlist, rfl, rfl, ?_, hwatch, rfl, rfl, ?_, rfl, rfl⟩
  · unfold Event.validate
    rw [if_neg hlist]
    rw [if_neg (by simp [listEventOf, hk]), if_neg (by simp [listEventOf, hp])]
  · unfold Event.validate
    rw [if_neg hwatch]
    rw [if_neg (by simp [watchEventOf, hk]), if_neg (by simp [watchEventOf, hp])]
  · unfold sendEvent at hsend
    cases hv : ev.validate with
    | error e => rw [hv] at hsend; cases hsend
    | ok u =>
      rw [hv] at hsend
      cases hsend
      cases u
      exact hv

def kvC5 : KVRec := { key := "/myapp/k1", value := "v1", createRevision := 3, modRevision := 3 }

def evC5 : Event := { type := AddedT, key := "/myapp/k1", value := "v1", pfx := "/myapp/" }

/-- C5 witness: the amended statement at a concrete watcher prefix,
key-value, put kind, message and a concrete valid event. -/
theorem event_validation_amended_witness :
    (listEventOf "/myapp/" kvC5).validate = .ok () ∧
    (listEventOf "/myapp/" kvC5).type ≠ "" ∧
    (listEventOf "/myapp/" kvC5).key = kvC5.key ∧
    (listEventOf "/myapp/" kvC5).pfx = "/myapp/" ∧
    (watchEventOf "/myapp/" .put kvC5).validate = .ok () ∧
    (watchEventOf "/myapp/" .put kvC5).type ≠ "" ∧
    (watchEventOf "/myapp/" .put kvC5).key = kvC5.key ∧
    (watchEventOf "/myapp/" .put kvC5).pfx = "/myapp/" ∧
    evC5.validate = .ok () ∧
    (errorEvent "etcd connection lost").key = "" ∧
    (errorEvent "etcd connection lost").pfx = "" :=
  event_validation_amended "/myapp/" kvC5 .put "etcd connection lost" evC5 evC5
    (by decide) (by decide) (by decide)

/-- C5 counterexample: a watcher is created with the non-empty prefix
"/myapp/", yet the synthetic error event sent on connection loss carries an
empty Prefix — not the watcher prefix — and fails the validation the claim
says every emitted event passes. -/
theorem error_event_counterexample :
    newListWatch ["localhost:2379"] "/myapp/" =
      .ok { endpoints := ["localhost:2379"], watchPfx := "/myapp/" } ∧
    (errorEvent "etcd connection lost").pfx ≠ "/myapp/" ∧
    (errorEvent "etcd connection lost").validate = .error "event prefix cannot be empty" := by
  decide

/-- C3 (amended): the api-level Pod.IsActive classifies a pod active exactly
when its status is not Failed (a Succeeded pod is active there), but the
classification the controller counts with, isPodActiveAndOwnedBy, admits a
pod exactly when it is owned by name prefix and its status is neither
Succeeded nor Failed — so a Succeeded pod is not counted toward the current
replicas. -/
theorem active_classification (pods : List Pod) (rs : ReplicaSet) (p : Pod) :
    (p ∈ getPodsForReplicaSet rs pods isPodActiveAndOwnedBy ↔
      p ∈ pods ∧ isOwnedBy p rs = true ∧ p.status ≠ PodSucceeded ∧ p.status ≠ PodFailed) ∧
    (Pod.IsActive p = true ↔ p.status ≠ PodFailed) := by
  constructor
  · simp [getPodsForReplicaSet, List.mem_filter, isPodActiveAndOwnedBy, isActive, and_assoc]
  · simp [Pod.IsActive]

def rsC3 : ReplicaSet :=
  { metadata := { name := "rs3", namespc := "", uid := "", resourceVersion := "",
                  creationTimestamp := 0 },
    spec := { replicas := 1, selector := [],
              template := { metadata := { name := "", namespc := "", uid := "",
                                          resourceVersion := "", creationTimestamp := 0 },
                            spec := { containers := [{ name := "c3", image := "nginx" }],
                                      replicas := 0 } } },
    status := { replicas := 0, fullyLabeledReplicas := 0, readyReplicas := 0,
                availableReplicas := 0 } }

def podC3 : Pod :=
  { metadata := { name := "rs3-pod1", namespc := "", uid := "", resourceVersion := "",
                  creationTimestamp := 0 },
    spec := { containers := [{ name := "c3", image := "nginx" }], replicas := 0 },
    nodeName := "n1",
    status := PodSucceeded }

/-- C3 counterexample: a Succeeded pod owned by the replica set has a status
other than Failed, yet the controller classifies it inactive and the count
of active owned pods excludes it. -/
theorem succeeded_pod_not_counted_counterexample :
    podC3.status ≠ PodFailed ∧ isOwnedBy podC3 rsC3 = true ∧
    isActive podC3 = false ∧
    getPodsForReplicaSet rsC3 [podC3] isPodActiveAndOwnedBy = [] := by
  decide

def histC1 : List EtcdOp := [.put "/t/k1" "v1"]

/-- C1: the Watch method performs its own fresh Get instead of re-using the
revision of the preceding List (which discards its response revision), and
anchors the watch at that fresh revision plus one; with the List served at
revision 0 and a put committing at revision 1 before the Watch-side Get, the
put appears in neither the list snapshot nor the watch stream, while a watch
anchored at the List revision plus one (as the claim and the repository
sequence diagram state) would deliver it. -/
theorem listwatch_revision_gap :
    codeListCycleEvents "/t/" histC1 0 = [] ∧
    codeWatchStartRev 1 = 2 ∧
    codeWatchOps histC1 1 = [] ∧
    specWatchOps histC1 0 = [EtcdOp.put "/t/k1" "v1"] := by
  decide

theorem reconcile_ok_elim {sfx : Nat → String} {w : World} {rsName : String}
    {r : ReconcileResult} (h : reconcile sfx w rsName = .ok r) :
    ∃ currentRS pods' rss',
      rsRegistryGet w.replicaSets rsName = .ok currentRS ∧
      createAll w.pods (reconToCreate sfx currentRS w) = .ok pods' ∧
      rsRegistryUpdate w.replicaSets (reconUpdatedRS currentRS w) = .ok rss' ∧
      r = { world := { pods := pods', replicaSets := rss' },
            created := reconToCreate sfx currentRS w,
            statusWritten := reconNewCount currentRS w } := by
  unfold reconcile at h
  split at h
  · cases h
  · rename_i currentRS hG
    split at h
    · cases h
    · rename_i pods' hC
      split at h
      · cases h
      · rename_i rss' hU
        injection h with he
        exact ⟨currentRS, pods', rss', hG, hC, hU, he.symm⟩

/-- C2 (amended): a successful Reconcile writes the desired replica count
rs.spec.replicas to rs.status.replicas: the creation branch and the excess
branch both reassign the counted value to desired before the status write,
so the written value equals the counted active owned pods only when that
count already equals desired — in particular, when the count exceeds
rs.spec.replicas the excess value is not written. -/
theorem reconcile_status_is_desired (sfx : Nat → String) (w : World) (rsName : String)
    (r : ReconcileResult) (currentRS : ReplicaSet)
    (h : reconcile sfx w rsName = .ok r)
    (hget : rsRegistryGet w.replicaSets rsName = .ok currentRS) :
    r.statusWritten = currentRS.spec.replicas := by
  obtain ⟨rs', pods', rss', hG, hC, hU, hr⟩ := reconcile_ok_elim h
  rw [hG] at hget
  injection hget with he
  subst he
  rw [hr]
  show reconNewCount rs' w = rs'.spec.replicas
  unfold reconNewCount
  by_cases h1 : reconCur rs' w < rs'.spec.replicas
  · simp [h1]
  · by_cases h2 : rs'.spec.replicas < reconCur rs' w
    · simp [h1, h2]
    · simp only [h1, h2, if_false]
      omega

def rsC2 : ReplicaSet :=
  { metadata := { name := "rs1", namespc := "", uid := "", resourceVersion := "",
                  creationTimestamp := 0 },
    spec := { replicas := 1, selector := [],
              template := { metadata := { name := "", namespc := "", uid := "",
                                          resourceVersion := "", creationTimestamp := 0 },
                            spec := { containers := [{ name := "c1", image := "nginx" }],
                                      replicas := 0 } } },
    status := { replicas := 0, fullyLabeledReplicas := 0, readyReplicas := 0,
                availableReplicas := 0 } }

def podOwnedC2 (nm : String) : Pod :=
  { metadata := { name := nm, namespc := "", uid := "", resourceVersion := "",
                  creationTimestamp := 0 },
    spec := { containers := [{ name := "c1", image := "nginx" }], replicas := 0 },
    nodeName := "",
    status := PodRunning }

def worldC2 : World :=
  { pods := [(podKeyBase ++ "rs1a", podOwnedC2 "rs1a"), (podKeyBase ++ "rs1b", podOwnedC2 "rs1b")],
    replicaSets := [(rsKey "rs1", rsC2)] }

/-- C2 counterexample: with desired 1 and two active owned pods the counted
value is 2, yet the successful Reconcile writes 1 to rs.status.replicas, not
the count the claim requires. -/
theorem reconcile_status_counterexample :
    activeOwnedCount rsC2 worldC2.pods = 2 ∧ rsC2.spec.replicas = 1 ∧
    (reconcile (fun _ => "-z") worldC2 "rs1").map (fun r => r.statusWritten) = .ok 1 := by
  decide

def rsCW : ReplicaSet :=
  { metadata := { name := "rsw", namespc := "", uid := "", resourceVersion := "",
                  creationTimestamp := 0 },
    spec := { replicas := 0, selector := [],
              template := { metadata := { name := "", namespc := "", uid := "",
                                          resourceVersion := "", creationTimestamp := 0 },
                            spec := { containers := [{ name := "cw", image := "nginx" }],
                                      replicas := 0 } } },
    status := { replicas := 0, fullyLabeledReplicas := 0, readyReplicas := 0,
                availableReplicas := 0 } }

def sfxW : Nat → String := fun _ => "-w"

def worldCW : World := { pods := [], replicaSets := [(rsKey "rsw", rsCW)] }

def rCW : ReconcileResult :=
  (reconcile sfxW worldCW "rsw").toOption.getD
    { world := { pods := [], replicaSets := [] }, created := [], statusWritten := 0 }

/-- C2 witness: the amended statement on a concrete world. -/
theorem reconcile_status_is_desired_witness : rCW.statusWritten = rsCW.spec.replicas :=
  reconcile_status_is_desired sfxW worldCW "rsw" rCW rsCW (by decide) (by decide)

theorem flatMap_const_length {γ δ : Type} (l : List γ) (f : γ → List δ) (c : Nat)
    (hf : ∀ x ∈ l, (f x).length = c) : (l.flatMap f).length = l.length * c := by
  induction l with
  | nil => simp
  | cons a t ih =>
    simp only [List.flatMap_cons, List.length_append, List.length_cons]
    rw [hf a (by simp), ih (fun x hx => hf x (by simp [hx]))]
    ring

theorem podsToCreate_length (rs : ReplicaSet) (sfx : Nat → String) (c d : Int) :
    (podsToCreate rs sfx c d).length =
      (d - c).toNat * rs.spec.template.spec.containers.length := by
  unfold podsToCreate
  rw [flatMap_const_length _ _ rs.spec.template.spec.containers.length]
  · simp
  · intro i _
    simp

theorem podsToCreate_map_containers (rs : ReplicaSet) (sfx : Nat → String) (c d : Int) :
    (podsToCreate rs sfx c d).map (fun p => p.spec.containers) =
      (List.range (d - c).toNat).flatMap
        (fun _ => rs.spec.template.spec.containers.map (fun ct => [ct])) := by
  unfold podsToCreate
  rw [List.map_flatMap]
  congr 1
  funext i
  rw [List.map_map]
  show rs.spec.template.spec.containers.enum.map ((fun ct => [ct]) ∘ Prod.snd) = _
  rw [← List.map_map, List.enum_map_snd]

theorem podsToCreate_names (rs : ReplicaSet) (sfx : Nat → String) (c d : Int) :
    (podsToCreate rs sfx c d).all
      (fun p => goHasPrefixCheck p.metadata.name rs.metadata.name) = true := by
  rw [List.all_eq_true]
  intro p hp
  unfold podsToCreate at hp
  simp only [List.mem_flatMap, List.mem_map, List.mem_range] at hp
  obtain ⟨i, _, cj, _, hpe⟩ := hp
  rw [← hpe]
  exact goHasPrefixCheck_append rs.metadata.name _

/-- C9: when a successful Reconcile finds fewer active owned pods than
desired, the pods it creates number exactly the shortfall times the template
container count, their single-container specs walk the template containers
in declaration order slot by slot, and every created pod name has the
replica-set name as a prefix. -/
theorem reconcile_creates_shortfall (sfx : Nat → String) (w : World) (rsName : String)
    (r : ReconcileResult) (currentRS : ReplicaSet)
    (h : reconcile sfx w rsName = .ok r)
    (hget : rsRegistryGet w.replicaSets rsName = .ok currentRS)
    (hlt : activeOwnedCount currentRS w.pods < currentRS.spec.replicas) :
    r.created.length =
      (currentRS.spec.replicas - activeOwnedCount currentRS w.pods).toNat *
        currentRS.spec.template.spec.containers.length ∧
    r.created.map (fun p => p.spec.containers) =
      (List.range (currentRS.spec.replicas - activeOwnedCount currentRS w.pods).toNat).flatMap
        (fun _ => currentRS.spec.template.spec.containers.map (fun ct => [ct])) ∧
    r.created.all
      (fun p => goHasPrefixCheck p.metadata.name currentRS.metadata.name) = true := by
  obtain ⟨rs', pods', rss', hG, hC, hU, hr⟩ := reconcile_ok_elim h
  rw [hG] at hget
  injection hget with he
  subst he
  rw [hr]
  show (reconToCreate sfx rs' w).length = _ ∧ (reconToCreate sfx rs' w).map _ = _ ∧
    (reconToCreate sfx rs' w).all _ = true
  have htc : reconToCreate sfx rs' w =
      podsToCreate rs' sfx (reconCur rs' w) rs'.spec.replicas := by
    unfold reconToCreate
    rw [if_pos (show reconCur rs' w < rs'.spec.replicas from hlt)]
  rw [htc]
  exact ⟨podsToCreate_length rs' sfx _ _, podsToCreate_map_containers rs' sfx _ _,
    podsToCreate_names rs' sfx _ _⟩

def rsC9 : ReplicaSet :=
  { metadata := { name := "rs9", namespc := "", uid := "", resourceVersion := "",
                  creationTimestamp := 0 },
    spec := { replicas := 1, selector := [],
              template := { metadata := { name := "", namespc := "", uid := "",
                                          resourceVersion := "", creationTimestamp := 0 },
                            spec := { containers := [{ name := "c9", image := "nginx" }],
                                      replicas := 0 } } },
    status := { replicas := 0, fullyLabeledReplicas := 0, readyReplicas := 0,
                availableReplicas := 0 } }

def sfx9 : Nat → String := fun k => String.mk (List.replicate (k + 1) 'x')

def world9 : World := { pods := [], replicaSets := [(rsKey "rs9", rsC9)] }

def rC9 : ReconcileResult :=
  (reconcile sfx9 world9 "rs9").toOption.getD
    { world := { pods := [], replicaSets := [] }, created := [], statusWritten := 0 }

/-- C9 witness: the statement on a concrete world with one missing replica
and a one-container template. -/
theorem reconcile_creates_shortfall_witness :
    rC9.created.length =
      (rsC9.spec.replicas - activeOwnedCount rsC9 world9.pods).toNat *
        rsC9.spec.template.spec.containers.length ∧
    rC9.created.map (fun p => p.spec.containers) =
      (List.range (rsC9.spec.replicas - activeOwnedCount rsC9 world9.pods).toNat).flatMap
        (fun _ => rsC9.spec.template.spec.containers.map (fun ct => [ct])) ∧
    rC9.created.all
      (fun p => goHasPrefixCheck p.metadata.name rsC9.metadata.name) = true :=
  reconcile_creates_shortfall sfx9 world9 "rs9" rC9 rsC9 (by decide) (by decide) (by decide)

/-- The pod value CreatePod stores: a pod arriving with an empty status is
stored with status Unassigned. -/
def normStoredPod (p : Pod) : Pod :=
  if p.status = "" then { p with status := PodStatusUnassigned } else p

/-- The store entry one successful CreatePod appends. -/
def podEntry (p : Pod) : String × Pod :=
  (podKeyBase ++ p.metadata.name, normStoredPod p)

theorem createPod_ok_eq {s s1 : StoreMap Pod} {p : Pod}
    (h : createPod s p = .ok s1) : s1 = s ++ [podEntry p] := by
  simp only [createPod] at h
  split at h
  · cases h
  · rename_i hg
    injection h with he
    rw [← he]
    exact storePut_absent _ hg

theorem createAll_ok_eq : ∀ {ps : List Pod} {s s' : StoreMap Pod},
    createAll s ps = .ok s' → s' = s ++ ps.map podEntry := by
  intro ps
  induction ps with
  | nil =>
    intro s s' h
    unfold createAll at h
    injection h with he
    simp [← he]
  | cons p rest ih =>
    intro s s' h
    unfold createAll at h
    split at h
    · cases h
    · rename_i s1 hcp
      have h1 := createPod_ok_eq hcp
      have h2 := ih h
      simp [h2, h1]

theorem listPods_append (s t : StoreMap Pod) :
    listPods (s ++ t) = listPods s ++ listPods t := by
  simp [listPods, storeListVals, List.filter_append]

theorem listPods_entries (ps : List Pod) :
    listPods (ps.map podEntry) = ps.map normStoredPod := by
  unfold listPods storeListVals
  rw [List.filter_eq_self.mpr, List.map_map]
  · rfl
  · intro kv hkv
    simp only [List.mem_map] at hkv
    obtain ⟨p, _, hpe⟩ := hkv
    rw [← hpe]
    exact goHasPrefixCheck_append podKeyBase p.metadata.name

theorem isPodActiveAndOwnedBy_name_congr (p : Pod) (rs rs2 : ReplicaSet)
    (h : rs2.metadata.name = rs.metadata.name) :
    isPodActiveAndOwnedBy p rs2 = isPodActiveAndOwnedBy p rs := by
  unfold isPodActiveAndOwnedBy isOwnedBy
  rw [h]

theorem activeOwnedCount_congr (rs rs2 : ReplicaSet) (s : StoreMap Pod)
    (h : rs2.metadata.name = rs.metadata.name) :
    activeOwnedCount rs2 s = activeOwnedCount rs s := by
  unfold activeOwnedCount getPodsForReplicaSet
  rw [List.filter_congr (fun p _ => isPodActiveAndOwnedBy_name_congr p rs rs2 h)]

theorem activeOwnedCount_append (rs2 : ReplicaSet) (s : StoreMap Pod) (ps : List Pod)
    (hall : ∀ p ∈ ps.map normStoredPod, isPodActiveAndOwnedBy p rs2 = true) :
    activeOwnedCount rs2 (s ++ ps.map podEntry) =
      activeOwnedCount rs2 s + ps.length := by
  unfold activeOwnedCount getPodsForReplicaSet
  rw [listPods_append, List.filter_append, listPods_entries,
    List.filter_eq_self.mpr hall]
  simp

theorem podsToCreate_norm_activeOwned (rs rs2 : ReplicaSet) (sfx : Nat → String)
    (c d : Int) (hname : rs2.metadata.name = rs.metadata.name) :
    ∀ p ∈ (podsToCreate rs sfx c d).map normStoredPod,
      isPodActiveAndOwnedBy p rs2 = true := by
  intro p hp
  simp only [List.mem_map] at hp
  obtain ⟨q, hq, hpe⟩ := hp
  unfold podsToCreate at hq
  simp only [List.mem_flatMap, List.mem_map, List.mem_range] at hq
  obtain ⟨i, _, cj, _, hqe⟩ := hq
  rw [← hpe, ← hqe]
  unfold isPodActiveAndOwnedBy isOwnedBy
  have hstat : (normStoredPod (templatePod rs.metadata.name
      (sfx (i * rs.spec.template.spec.containers.length + cj.1)) cj.2)).status =
      PodStatusUnassigned := rfl
  have hnm : (normStoredPod (templatePod rs.metadata.name
      (sfx (i * rs.spec.template.spec.containers.length + cj.1)) cj.2)).metadata.name =
      rs.metadata.name ++ sfx (i * rs.spec.template.spec.containers.length + cj.1) := rfl
  rw [Bool.and_eq_true]
  constructor
  · rw [hnm, hname]
    exact goHasPrefixCheck_append _ _
  · unfold isActive
    rw [hstat]
    decide

theorem podsToCreate_containers_nil (rs : ReplicaSet) (sfx : Nat → String) (c d : Int)
    (h : rs.spec.template.spec.containers = []) : podsToCreate rs sfx c d = [] := by
  unfold podsToCreate
  rw [h]
  simp

theorem rsRegistryGet_ok_elim {s : StoreMap ReplicaSet} {name : String} {rs : ReplicaSet}
    (h : rsRegistryGet s name = .ok rs) : storeGet s (rsKey name) = some rs := by
  unfold rsRegistryGet at h
  split at h
  · rename_i rs' hg
    injection h with he
    rw [hg, he]
  · cases h

theorem rsRegistryUpdate_ok_elim {s s' : StoreMap ReplicaSet} {rs : ReplicaSet}
    (h : rsRegistryUpdate s rs = .ok s') :
    s' = storePut s (rsKey rs.metadata.name) rs := by
  unfold rsRegistryUpdate at h
  split at h
  · cases h
  · injection h with he
    exact he.symm

theorem reconNewCount_eq_desired (rs : ReplicaSet) (w : World) :
    reconNewCount rs w = rs.spec.replicas := by
  unfold reconNewCount
  by_cases h1 : reconCur rs w < rs.spec.replicas
  · simp [h1]
  · by_cases h2 : rs.spec.replicas < reconCur rs w
    · simp [h1, h2]
    · simp only [h1, h2, if_false]
      omega

theorem rsRegistryGet_present {s : StoreMap ReplicaSet} {name : String} {rs : ReplicaSet}
    (h : storeGet s (rsKey name) = some rs) : rsRegistryGet s name = .ok rs := by
  unfold rsRegistryGet
  rw [h]

theorem rsRegistryUpdate_present {s : StoreMap ReplicaSet} {rs q : ReplicaSet}
    (h : storeGet s (rsKey rs.metadata.name) = some q) :
    rsRegistryUpdate s rs = .ok (storePut s (rsKey rs.metadata.name) rs) := by
  unfold rsRegistryUpdate
  rw [h]

theorem reconcile_eval {sfx : Nat → String} {w : World} {rsName : String}
    {rs2 : ReplicaSet} {pods' : StoreMap Pod} {rss' : StoreMap ReplicaSet}
    (hG : rsRegistryGet w.replicaSets rsName = .ok rs2)
    (hC : createAll w.pods (reconToCreate sfx rs2 w) = .ok pods')
    (hU : rsRegistryUpdate w.replicaSets (reconUpdatedRS rs2 w) = .ok rss') :
    reconcile sfx w rsName =
      .ok { world := { pods := pods', replicaSets := rss' },
            created := reconToCreate sfx rs2 w,
            statusWritten := reconNewCount rs2 w } := by
  simp only [reconcile, hG, hC, hU]

theorem reconcile_second_run (sfx1 sfx2 : Nat → String) (w : World) (rsName : String)
    (cur rs2 : ReplicaSet) (pods1 : StoreMap Pod) (rss1 : StoreMap ReplicaSet)
    (hmeta : rs2.metadata = cur.metadata) (hspec : rs2.spec = cur.spec)
    (hP : pods1 = w.pods ++ (reconToCreate sfx1 cur w).map podEntry)
    (hG2 : storeGet rss1 (rsKey rsName) = some rs2)
    (hq : storeGet rss1 (rsKey rs2.metadata.name) = some (reconUpdatedRS cur w)) :
    reconcile sfx2 { pods := pods1, replicaSets := rss1 } rsName =
      .ok { world := { pods := pods1,
                       replicaSets := storePut rss1 (rsKey rs2.metadata.name)
                         (reconUpdatedRS rs2 { pods := pods1, replicaSets := rss1 }) },
            created := [], statusWritten := reconNewCount cur w } := by
  have hname : rs2.metadata.name = cur.metadata.name := by rw [hmeta]
  have hrep : rs2.spec.replicas = cur.spec.replicas := by rw [hspec]
  have hall : ∀ p ∈ (reconToCreate sfx1 cur w).map normStoredPod,
      isPodActiveAndOwnedBy p rs2 = true := by
    unfold reconToCreate
    split
    · exact podsToCreate_norm_activeOwned cur rs2 sfx1 _ _ hname
    · intro p hp
      simp at hp
  have hcur2 : reconCur rs2 { pods := pods1, replicaSets := rss1 } =
      reconCur cur w + ((reconToCreate sfx1 cur w).length : Int) := by
    show activeOwnedCount rs2 pods1 = _
    rw [hP, activeOwnedCount_append rs2 w.pods _ hall,
      activeOwnedCount_congr cur rs2 w.pods hname]
    rfl
  have htc2 : reconToCreate sfx2 rs2 { pods := pods1, replicaSets := rss1 } = [] := by
    unfold reconToCreate
    by_cases hcd : reconCur cur w < cur.spec.replicas
    · have hlen1 : (reconToCreate sfx1 cur w).length =
          (cur.spec.replicas - reconCur cur w).toNat *
            cur.spec.template.spec.containers.length := by
        unfold reconToCreate
        rw [if_pos hcd]
        exact podsToCreate_length cur sfx1 _ _
      by_cases hC0 : cur.spec.template.spec.containers.length = 0
      · have hnil2 : rs2.spec.template.spec.containers = [] := by
          rw [hspec]
          exact List.length_eq_zero.mp hC0
        split
        · exact podsToCreate_containers_nil rs2 sfx2 _ _ hnil2
        · rfl
      · have hpos : 0 < cur.spec.template.spec.containers.length := Nat.pos_of_ne_zero hC0
        have hmul := Nat.le_mul_of_pos_right
          (cur.spec.replicas - reconCur cur w).toNat hpos
        have hge : ¬ (reconCur rs2 { pods := pods1, replicaSets := rss1 } <
            rs2.spec.replicas) := by
          rw [hcur2, hlen1, hrep]
          omega
        rw [if_neg hge]
    · have htc1 : reconToCreate sfx1 cur w = [] := by
        unfold reconToCreate
        rw [if_neg hcd]
      have hge : ¬ (reconCur rs2 { pods := pods1, replicaSets := rss1 } <
          rs2.spec.replicas) := by
        rw [hcur2, htc1, hrep]
        simp only [List.length_nil, Nat.cast_zero, add_zero]
        omega
      rw [if_neg hge]
  have hnc2 : reconNewCount rs2 { pods := pods1, replicaSets := rss1 } =
      reconNewCount cur w := by
    rw [reconNewCount_eq_desired, reconNewCount_eq_desired, hrep]
  have hG2' : rsRegistryGet rss1 rsName = .ok rs2 := rsRegistryGet_present hG2
  have hC2 : createAll pods1 (reconToCreate sfx2 rs2 { pods := pods1, replicaSets := rss1 }) =
      .ok pods1 := by
    rw [htc2]
    rfl
  have hU2 : rsRegistryUpdate rss1
      (reconUpdatedRS rs2 { pods := pods1, replicaSets := rss1 }) =
      .ok (storePut rss1 (rsKey rs2.metadata.name)
        (reconUpdatedRS rs2 { pods := pods1, replicaSets := rss1 })) :=
    rsRegistryUpdate_present hq
  have heval := @reconcile_eval sfx2 { pods := pods1, replicaSets := rss1 } rsName rs2
    pods1 (storePut rss1 (rsKey rs2.metadata.name)
      (reconUpdatedRS rs2 { pods := pods1, replicaSets := rss1 })) hG2' hC2 hU2
  rw [heval, htc2, hnc2]

/-- C4: after one successful Reconcile over a world, a second Reconcile over
the resulting world with no interleaving change also succeeds, creates no
pods, leaves the pod store exactly as the first run left it, and writes the
same rs.status.replicas value as the first run. -/
theorem reconcile_idempotent (sfx1 sfx2 : Nat → String) (w : World) (rsName : String)
    (r1 : ReconcileResult) (h1 : reconcile sfx1 w rsName = .ok r1) :
    (reconcile sfx2 r1.world rsName).map (fun r2 => r2.world.pods) = .ok r1.world.pods ∧
    (reconcile sfx2 r1.world rsName).map (fun r2 => r2.created) = .ok ([] : List Pod) ∧
    (reconcile sfx2 r1.world rsName).map (fun r2 => r2.statusWritten) =
      .ok r1.statusWritten := by
  obtain ⟨cur, pods1, rss1, hG, hC, hU, hr⟩ := reconcile_ok_elim h1
  subst hr
  have hP := createAll_ok_eq hC
  have hRss1 : rss1 = storePut w.replicaSets (rsKey cur.metadata.name)
      (reconUpdatedRS cur w) := rsRegistryUpdate_ok_elim hU
  have hGet1 : storeGet w.replicaSets (rsKey rsName) = some cur := rsRegistryGet_ok_elim hG
  have hq : storeGet rss1 (rsKey cur.metadata.name) = some (reconUpdatedRS cur w) := by
    rw [hRss1]
    exact storeGet_storePut_self _ _ _
  by_cases hkey : rsKey rsName = rsKey cur.metadata.name
  · have hG2 : storeGet rss1 (rsKey rsName) = some (reconUpdatedRS cur w) := by
      rw [hkey]
      exact hq
    have hsec := reconcile_second_run sfx1 sfx2 w rsName cur (reconUpdatedRS cur w)
      pods1 rss1 rfl rfl hP hG2 hq
    show (reconcile sfx2 { pods := pods1, replicaSets := rss1 } rsName).map
        (fun r2 => r2.world.pods) = .ok pods1 ∧ _ ∧ _
    rw [hsec]
    exact ⟨rfl, rfl, rfl⟩
  · have hG2 : storeGet rss1 (rsKey rsName) = some cur := by
      rw [hRss1, storeGet_storePut_ne _ _ _ _ hkey]
      exact hGet1
    have hsec := reconcile_second_run sfx1 sfx2 w rsName cur cur pods1 rss1 rfl rfl hP hG2 hq
    show (reconcile sfx2 { pods := pods1, replicaSets := rss1 } rsName).map
        (fun r2 => r2.world.pods) = .ok pods1 ∧ _ ∧ _
    rw [hsec]
    exact ⟨rfl, rfl, rfl⟩

def rsC4 : ReplicaSet :=
  { metadata := { name := "rs4", namespc := "", uid := "", resourceVersion := "",
                  creationTimestamp := 0 },
    spec := { replicas := 2, selector := [],
              template := { metadata := { name := "", namespc := "", uid := "",
                                          resourceVersion := "", creationTimestamp := 0 },
                            spec := { containers := [{ name := "c4", image := "nginx" }],
                                      replicas := 0 } } },
    status := { replicas := 0, fullyLabeledReplicas := 0, readyReplicas := 0,
                availableReplicas := 0 } }

def sfx4 : Nat → String := fun k => String.mk (List.replicate (k + 1) 'y')

def world4 : World := { pods := [], replicaSets := [(rsKey "rs4", rsC4)] }

def rC4 : ReconcileResult :=
  (reconcile sfx4 world4 "rs4").toOption.getD
    { world := { pods := [], replicaSets := [] }, created := [], statusWritten := 0 }

/-- C4 witness: the idempotence statement on a concrete world where the
first run creates two pods. -/
theorem reconcile_idempotent_witness :
    (reconcile sfx4 rC4.world "rs4").map (fun r2 => r2.world.pods) = .ok rC4.world.pods ∧
    (reconcile sfx4 rC4.world "rs4").map (fun r2 => r2.created) = .ok ([] : List Pod) ∧
    (reconcile sfx4 rC4.world "rs4").map (fun r2 => r2.statusWritten) =
      .ok rC4.statusWritten :=
  reconcile_idempotent sfx4 sfx4 world4 "rs4" rC4 (by decide)
